import Mathlib

/-!
Verification of the market-data replay server (`datafeed/server3.py`).

Shallow embedding conventions:
* Python floats (prices, timestamps) are modelled as `ℚ`; sizes and ages as `ℤ`.
* Python generators become pure functions from input lists to output lists;
  the mutable book dictionary becomes explicitly threaded state.
* Fallible code returns `Except Unit`: `.error ()` models an uncaught Python
  exception (e.g. the IndexError raised by `book[0]` on an empty list);
  `.ok none` models an explicit `return None` / falling off the function body.
* Calls to `random.normalvariate(mu, sigma)` are modelled in location-scale
  form `mu + sigma * z` where `z` is an injected (adversarially arbitrary)
  standardized draw; `random.random()` comparisons take an injected `ℚ`.
-/

/-- A resting book entry `(price, size, age)`, as the Python triples. -/
def Entry : Type := ℚ × ℤ × ℤ

instance : DecidableEq Entry := by unfold Entry; infer_instance

/-- The side tag of an order; the recorded rows only ever carry the strings
"buy" and "sell", modelled as an enumeration. -/
inductive Side where
  | buy
  | sell
deriving DecidableEq

/-- One recorded order row `(time, stock, side, order, size)`. -/
structure Event where
  t : ℚ
  stock : String
  side : Side
  order : ℚ
  size : ℤ
deriving DecidableEq

/-- Python `operator.ge` on prices, as a Boolean comparator. -/
def operator_ge (a b : ℚ) : Bool := decide (b ≤ a)

/-- Python `operator.le` on prices, as a Boolean comparator. -/
def operator_le (a b : ℚ) : Bool := decide (a ≤ b)

/-- The `ops` dictionary at the bottom of the module: it associates a
comparator to each book side (`operator.le` under the key "buy",
`operator.ge` under the key "sell"); looking up a missing key is a
`KeyError`, modelled by `none`. -/
def ops (side : String) : Option (ℚ → ℚ → Bool) :=
  if side == "buy" then some operator_le
  else if side == "sell" then some operator_ge
  else none

/-- `add_book(book, order, size, _age)`: prepend the new entry, and keep each
existing entry with its age decremented when its age is positive, dropping
the rest. -/
def add_book (book : List Entry) (order : ℚ) (size : ℤ) (age : ℤ) : List Entry :=
  (order, size, age) ::
    book.filterMap (fun e => if 0 < e.2.2 then some (e.1, e.2.1, e.2.2 - 1) else none)

/-- `clear_order(order, size, book, op, _notional)`: try to clear a sized
order against a book.  `.error ()` models the IndexError raised by `book[0]`
when the book is empty; `.ok none` models the implicit `return None` taken
when the order does not cross the top, or when the top (plus the rest of the
book, recursively) cannot fully cover the incoming size. -/
def clear_order (order : ℚ) (size : ℤ) (book : List Entry) (op : ℚ → ℚ → Bool)
    (notional : ℚ) : Except Unit (Option (ℚ × List Entry)) :=
  match book with
  | [] => .error ()
  | (top_order, top_size, age) :: tail =>
    if op order top_order then
      let notional1 := notional + ((min size top_size : ℤ) : ℚ) * top_order
      let sdiff := top_size - size
      if 0 < sdiff then
        .ok (some (notional1, add_book tail top_order sdiff age))
      else if 0 < tail.length then
        clear_order order (-sdiff) tail op notional1
      else
        .ok none
    else
      .ok none

/-- The `while buy and sell` loop of `clear_book`, on the two list values.
Each iteration clears the top buy order against the sell book with the
default comparator `operator.ge` and a fresh notional accumulator; on
success the consumed buy top is dropped and the sell book replaced, on
`None` (or on the unreachable empty-book error) the loop breaks. -/
def clear_book_core : List Entry → List Entry → List Entry × List Entry
  | [], sell => ([], sell)
  | (order, size, age) :: buyTail, sell =>
    if sell.isEmpty then ((order, size, age) :: buyTail, sell)
    else
      match clear_order order size sell operator_ge 0 with
      | .ok (some (_, newSell)) => clear_book_core buyTail newSell
      | _ => ((order, size, age) :: buyTail, sell)

/-- `clear_book(buy=None, sell=None)`: the keyword arguments may be absent
(`none`, the Python default `None`), in which case the falsy check skips the
loop and the inputs are returned unchanged. -/
def clear_book (buy sell : Option (List Entry)) :
    Option (List Entry) × Option (List Entry) :=
  match buy, sell with
  | some b, some s =>
    let p := clear_book_core b s
    (some p.1, some p.2)
  | b, s => (b, s)

/-- The per-symbol book dictionary: each side's key is absent (`none`) until
the first insertion on that side. -/
structure BookDict where
  buy : Option (List Entry)
  sell : Option (List Entry)
deriving DecidableEq

/-- The empty dictionary the App starts each symbol with. -/
def BookDict.empty : BookDict := ⟨none, none⟩

/-- `sorted(new, reverse=(side == "buy"), key=lambda x: x[0])`: a stable sort
by price, descending for the buy side and ascending for the sell side.
Python's `sorted` is stable; any stable sort computes the same list for a
total preorder, and insertion sort is used here because it is structurally
recursive (hence evaluable). -/
def sort_side (side : Side) (l : List Entry) : List Entry :=
  match side with
  | .buy => l.insertionSort (fun a b => b.1 ≤ a.1)
  | .sell => l.insertionSort (fun a b => a.1 ≤ b.1)

/-- `book[side] = sorted(add_book(book.get(side, []), order, size), ...)`. -/
def side_insert (bd : BookDict) (side : Side) (order : ℚ) (size : ℤ) : BookDict :=
  match side with
  | .buy => { bd with buy := some (sort_side .buy (add_book (bd.buy.getD []) order size 10)) }
  | .sell => { bd with sell := some (sort_side .sell (add_book (bd.sell.getD []) order size 10)) }

/-- The per-event mutation of the book dictionary performed by `order_book`:
insert (with aging and re-sorting) only when the row's stock matches. -/
def insert_step (bd : BookDict) (ev : Event) (stock_name : String) : BookDict :=
  if ev.stock == stock_name then side_insert bd ev.side ev.order ev.size else bd

/-- A yielded snapshot `(t, bids, asks)`; each side is `None` until the first
insertion on it (`clear_book` passes absent keys through unchanged). -/
def Snapshot : Type := ℚ × Option (List Entry) × Option (List Entry)

instance : DecidableEq Snapshot := by unfold Snapshot; infer_instance

/-- `order_book(orders, book, stock_name)`: for each recorded row, mutate the
book dictionary by inserting the order when the stock matches, then yield
`(t, *clear_book(**book))`.  Note the cleared books are only yielded: they
are never written back into the dictionary, which keeps its post-insertion
state for the next row. -/
def order_book : List Event → BookDict → String → List Snapshot
  | [], _, _ => []
  | ev :: evs, bd, stock_name =>
    let bd1 := insert_step bd ev stock_name
    let cleared := clear_book bd1.buy bd1.sell
    (ev.t, cleared.1, cleared.2) :: order_book evs bd1 stock_name

/-- The sequence of post-insertion dictionary states seen by `order_book`
(the state after processing each event's insertion, before any clearing). -/
def insertStates : List Event → BookDict → String → List BookDict
  | [], _, _ => []
  | ev :: evs, bd, stock_name =>
    let bd1 := insert_step bd ev stock_name
    bd1 :: insertStates evs bd1 stock_name

/-- Modelled from the claim, for comparison with `order_book` (refinement
target, not source code): a replay pipeline that folds the book state
through insert-then-cross, i.e. the uncrossed books returned by
`clear_book` become the state into which the next event is inserted. -/
def order_book_claimed : List Event → BookDict → String → List Snapshot
  | [], _, _ => []
  | ev :: evs, bd, stock_name =>
    let bd1 := insert_step bd ev stock_name
    let cleared := clear_book bd1.buy bd1.sell
    (ev.t, cleared.1, cleared.2) ::
      order_book_claimed evs ⟨cleared.1, cleared.2⟩ stock_name

/-- The `REALTIME` configuration flag; the module sets it to `True`. -/
def REALTIME : Bool := true

/-- The `OVERLAP` trade parameter. -/
def OVERLAP : ℚ := 4

/-- Python's floor-style float remainder `a % b` (result carries the sign of
the divisor): `a - b * floor (a / b)`. -/
def pymod (a b : ℚ) : ℚ := a - b * ⌊a / b⌋

/-- The body of `bwalk`'s infinite loop, unrolled over a list of injected
normal draws: the accumulator (the shadowed `max` variable) is perturbed
first, then the reflected value is emitted. -/
def bwalk_go (lo rng : ℚ) : ℚ → List ℚ → List ℚ
  | _, [] => []
  | acc, d :: ds =>
    let acc1 := acc + d
    (|pymod acc1 (rng * 2) - rng| + lo) :: bwalk_go lo rng acc1 ds

/-- `bwalk(min, max, std)`: a bounded random walk.  `rng = max - min` is
fixed up-front; the accumulator starts at `max` and absorbs one injected
draw (a `normalvariate(0, std)` value) per emitted element.  The `std`
parameter only parameterizes the distribution of the injected draws. -/
def bwalk (min max std : ℚ) (draws : List ℚ) : List ℚ :=
  bwalk_go min (max - min) max draws

/-- Python's `round(x, 2)`: round to the nearest multiple of 1/100.  (Tie
behaviour at exact half-cents differs — Python rounds ties to even — but no
claim here exercises a tie.) -/
def round2 (q : ℚ) : ℚ := ((round (q * 100) : ℤ) : ℚ) / 100

/-- The randomness consumed by `orders` for one market tick: the two
`random.random()` uniforms (stock and side choice) and the standardized
draws behind the two `normalvariate` calls (limit price and size). -/
structure OrderRand where
  u_stock : ℚ
  u_side : ℚ
  z_price : ℚ
  z_size : ℚ
deriving DecidableEq

/-- `orders(hist)`: one synthetic limit order per market tick `(t, px, spd)`.
The stock and side are coin flips; the limit price is
`round(normalvariate(px + spd/d, spd/OVERLAP), 2)` with `d = 2` for sell and
`d = -2` for buy, i.e. `round2 (px + spd/d + spd/OVERLAP * z)` for the
injected standardized draw `z`; the size is `int(abs(normalvariate(0, 100)))`,
i.e. the floor of `|100 * z|`. -/
def orders (hist : List (ℚ × ℚ × ℚ)) (rs : List OrderRand) : List Event :=
  List.zipWith
    (fun h r =>
      let stock := if (1 : ℚ) / 2 < r.u_stock then "ABC" else "DEF"
      let sd : Side × ℚ := if (1 : ℚ) / 2 < r.u_side then (.sell, 2) else (.buy, -2)
      let order := round2 (h.2.1 + h.2.2 / sd.2 + h.2.2 / OVERLAP * r.z_price)
      let size : ℤ := ⌊|(100 : ℚ) * r.z_size|⌋
      Event.mk h.1 stock sd.1 order size)
    hist rs

/-- One `next()` pull on the `_current_book_1` / `_current_book_2` property.
Each access builds a fresh generator over the shared snapshot stream, so one
pull drains snapshots whose timestamp has already been caught up by
wall-clock time (`t <= sim_start + (now - rt_start)`) and returns the first
remaining snapshot still ahead of wall-clock time; it raises StopIteration
(`.error ()`) when the stream runs out.  Each evaluation of the while
condition samples `datetime.now()` once: `nows k` is the k-th sample. -/
def next_current_book (sim_start rt_start : ℚ) (nows : ℕ → ℚ) :
    List Snapshot → ℕ → Except Unit (Snapshot × List Snapshot × ℕ)
  | [], _ => .error ()
  | s :: rest, k =>
    if REALTIME then
      if sim_start + (nows k - rt_start) < s.1 then .ok (s, rest, k + 1)
      else next_current_book sim_start rt_start nows rest (k + 1)
    else .ok (s, rest, k)

/-- The App's mutable state: the two per-symbol book dictionaries, the two
replay feeds (remaining snapshots of the `order_book` generators — the
`book_1`/`book_2` fields hold the dictionary contents at the modelled
instant), and the simulation / wall-clock anchors. -/
structure AppState where
  book_1 : BookDict
  book_2 : BookDict
  data_1 : List Snapshot
  data_2 : List Snapshot
  sim_start : ℚ
  rt_start : ℚ
deriving DecidableEq

/-- `read_10_first_lines`: ten interleaved `next()` calls on each feed;
raises (`.error ()`) when either feed has fewer than ten snapshots left. -/
def read_10_first_lines (st : AppState) : Except Unit AppState :=
  if 10 ≤ st.data_1.length ∧ 10 ≤ st.data_2.length then
    .ok { st with data_1 := st.data_1.drop 10, data_2 := st.data_2.drop 10 }
  else .error ()

/-- `initialize_data_feeds`: rebuild both feeds from the recorded rows (the
same source, re-read from the start) over the *existing* book dictionaries,
capture `sim_start` from the first snapshot of feed 1 (consuming it), then
consume ten more snapshots from each feed.  `.error ()` models reaching the
internal `except` branch (the App is left partially initialized and the next
pull fails); `_rt_start` is never recaptured. -/
def initialize_data_feeds (rows : List Event) (st : AppState) : Except Unit AppState :=
  let d1 := order_book rows st.book_1 "ABC"
  let d2 := order_book rows st.book_2 "DEF"
  match d1 with
  | [] => .error ()
  | s :: d1rest =>
    read_10_first_lines
      { st with data_1 := d1rest, data_2 := d2, sim_start := s.1 }

/-- One attempt of `handle_query`'s body: pull one paced snapshot from each
feed in sequence.  On failure the partially consumed feed state is
discarded (the caller either rebuilds both feeds or propagates the error). -/
def pull_both (nows : ℕ → ℚ) (st : AppState) (k : ℕ) :
    Except Unit (Snapshot × Snapshot × AppState × ℕ) :=
  match next_current_book st.sim_start st.rt_start nows st.data_1 k with
  | .error _ => .error ()
  | .ok (s1, rest1, k1) =>
    match next_current_book st.sim_start st.rt_start nows st.data_2 k1 with
    | .error _ => .error ()
    | .ok (s2, rest2, k2) =>
      .ok (s1, s2, { st with data_1 := rest1, data_2 := rest2 }, k2)

/-- `handle_query`: pull one paced snapshot per symbol; on StopIteration
from either pull, reinitialize both data feeds from the recorded rows and
retry exactly once, with no second handler (a failure of the retry
propagates to the caller). -/
def handle_query (rows : List Event) (nows : ℕ → ℚ) (st : AppState) (k : ℕ) :
    Except Unit (Snapshot × Snapshot × AppState × ℕ) :=
  match pull_both nows st k with
  | .ok r => .ok r
  | .error _ =>
    match initialize_data_feeds rows st with
    | .error e => .error e
    | .ok st1 => pull_both nows st1 k

/-- A concrete 3-event recorded sequence for the ABC symbol: a resting ask,
a buy that partially clears it, then another ask. -/
def evs3 : List Event :=
  [⟨1, "ABC", .sell, 8, 10⟩, ⟨2, "ABC", .buy, 9, 4⟩, ⟨3, "ABC", .sell, 7, 1⟩]

/-- A concrete recorded source of 12 rows at timestamps 1..12, none of them
for the ABC or DEF symbols (so both replay books stay empty and snapshots
stay small). -/
def rows12 : List Event :=
  [⟨1, "XYZ", .sell, 101, 1⟩, ⟨2, "XYZ", .sell, 102, 1⟩, ⟨3, "XYZ", .sell, 103, 1⟩,
   ⟨4, "XYZ", .sell, 104, 1⟩, ⟨5, "XYZ", .sell, 105, 1⟩, ⟨6, "XYZ", .sell, 106, 1⟩,
   ⟨7, "XYZ", .sell, 107, 1⟩, ⟨8, "XYZ", .sell, 108, 1⟩, ⟨9, "XYZ", .sell, 109, 1⟩,
   ⟨10, "XYZ", .sell, 110, 1⟩, ⟨11, "XYZ", .sell, 111, 1⟩, ⟨12, "XYZ", .sell, 112, 1⟩]

/-- An App state whose feeds are exhausted: the next query pull hits
StopIteration and triggers the rebuild path. -/
def st0 : AppState :=
  ⟨BookDict.empty, BookDict.empty, [], [], 0, 0⟩

/-- The App state after the rebuild-and-retry triggered from `st0` over
`rows12`: feed 1 is exhausted again, feed 2 holds the last snapshot. -/
def st12 : AppState :=
  ⟨BookDict.empty, BookDict.empty, [], [((12 : ℚ), none, none)], 1, 0⟩

/-- C1 (amended): `order_book` threads only the post-insertion book states:
the dictionary into which each event's order is inserted is the
post-insertion dictionary from the previous event (crossed quantity still
included), and each yielded snapshot is exactly `clear_book` applied to the
current post-insertion state — the uncrossed books are never folded back
into the state. -/
theorem c1_order_book_threads_insert_states (evs : List Event) (bd : BookDict)
    (stock_name : String) :
    order_book evs bd stock_name =
      List.zipWith
        (fun ev st =>
          ((ev.t, (clear_book st.buy st.sell).1, (clear_book st.buy st.sell).2) : Snapshot))
        evs (insertStates evs bd stock_name) := by
  induction evs generalizing bd with
  | nil => simp [order_book, insertStates]
  | cons ev evs ih => simp [order_book, insertStates, ih]

/-- C1 counterexample: on a concrete 3-event sequence the pipeline that
folds the book state through insert-then-cross (as the claim states) yields
a different snapshot stream than the source's `order_book`: quantity matched
at event 2 is still present in the resting book state seen by event 3. -/
theorem c1_counterexample :
    order_book evs3 BookDict.empty "ABC" ≠ order_book_claimed evs3 BookDict.empty "ABC" := by
  norm_num [evs3, order_book, order_book_claimed, BookDict.empty, insert_step, side_insert,
    sort_side, add_book, clear_book, clear_book_core, clear_order, operator_ge, Snapshot,
    List.insertionSort, List.orderedInsert]
  decide

/-- C2 (code bug): `clear_book` can return a crossed pair, contradicting its
own docstring ("returning the new books uncrossed").  With the buy book
`[(10, 5, 10)]` and the sell book `[(9, 5, 10)]`, the top buy crosses the
top ask but `clear_order` reports failure (exact-depth consumption with no
tail), so the loop breaks and both books come back unchanged and nonempty
with best bid 10 ≥ best ask 9. -/
theorem c2_clear_book_crossed_at_failing_input :
    clear_book (some [((10 : ℚ), 5, 10)]) (some [((9 : ℚ), 5, 10)])
        = (some [((10 : ℚ), 5, 10)], some [((9 : ℚ), 5, 10)]) ∧
      ¬([((10 : ℚ), 5, 10)] = ([] : List Entry) ∨ [((9 : ℚ), 5, 10)] = ([] : List Entry) ∨
        (10 : ℚ) < 9) := by
  constructor
  · norm_num [clear_book, clear_book_core, clear_order, operator_ge]
  · decide

/-- C4: for the bid book `[(101, 50, 10)]` and an incoming sell order
`(100, 30)`, `clear_order` with the comparator the `ops` dictionary holds
for the bid book (`operator.le`, the comparator applied when a sell order is
cleared against bids) returns notional `30 * 101 = 3030` and the bid book
`[(101, 20, 10)]` — the partial remainder keeps its age 10. -/
theorem c4_clear_order_partial_fill_scenario :
    ops "buy" = some operator_le ∧
      clear_order 100 30 [((101 : ℚ), 50, 10)] operator_le 0
        = .ok (some (3030, [((101 : ℚ), 20, 10)])) := by
  constructor
  · rfl
  · norm_num [clear_order, operator_le, add_book]

/-- C5 counterexample: with the bid book `[(101, 20, 10)]`, an incoming sell
order `(100, 20)` does NOT empty the book — `clear_order` reports failure
(`None`), not a fill of notional 2020 with an empty remaining book — and a
subsequent sell `(100, 5)` against an empty bid book raises an IndexError
(from `book[0]`) instead of returning `None`. -/
theorem c5_counterexample :
    clear_order 100 20 [((101 : ℚ), 20, 10)] operator_le 0
        ≠ .ok (some (2020, ([] : List Entry))) ∧
      clear_order 100 5 ([] : List Entry) operator_le 0 ≠ .ok none := by
  have h1 : clear_order 100 20 [((101 : ℚ), 20, 10)] operator_le 0 = .ok none := by
    norm_num [clear_order, operator_le]
  have h2 : clear_order 100 5 ([] : List Entry) operator_le 0 = .error () := by
    norm_num [clear_order]
  exact ⟨by rw [h1]; simp, by rw [h2]; simp⟩

/-- C5 (amended): exact-depth consumption is reported as failure, not as a
fill that empties the book: `clear_order` on the bid book `[(101, 20, 10)]`
with the incoming sell `(100, 20)` returns `None`, and `clear_order` on an
empty book raises (the IndexError from `book[0]`) rather than returning
`None`. -/
theorem c5_exact_consumption_fails_and_empty_book_raises :
    clear_order 100 20 [((101 : ℚ), 20, 10)] operator_le 0 = .ok none ∧
      clear_order 100 5 ([] : List Entry) operator_le 0 = .error () := by
  constructor
  · norm_num [clear_order, operator_le]
  · norm_num [clear_order]

/-- C8: against a one-entry opposite book whose top is crossed by the
incoming order and whose top size does not exceed the incoming size —
including exact equality — `clear_order` reports failure (`None`), never a
perfect fill. -/
theorem c8_exact_depth_reports_failure (order top_order : ℚ)
    (size top_size age : ℤ) (op : ℚ → ℚ → Bool) (notional : ℚ)
    (hop : op order top_order = true) (hsz : top_size ≤ size) :
    clear_order order size [(top_order, top_size, age)] op notional = .ok none := by
  have hns : ¬(0 < top_size - size) := by omega
  simp [clear_order, hop, hns]

/-- C8 witness: a sell-book top of price 4 and size 10 crossed by an
incoming buy at price 5 of exactly size 10 fails to match. -/
theorem c8_witness :
    operator_ge 5 4 = true ∧ (10 : ℤ) ≤ 10 ∧
      clear_order 5 10 [((4 : ℚ), 10, 3)] operator_ge 0 = .ok none := by
  refine ⟨by norm_num [operator_ge], le_refl 10, ?_⟩
  exact c8_exact_depth_reports_failure 5 4 10 10 3 operator_ge 0
    (by norm_num [operator_ge]) (le_refl 10)

/-- The aging pass of `add_book`, rewritten the way the claim describes it:
on a book whose ages are all nonnegative, it decrements every entry's age
and drops exactly the entries whose age was 0. -/
theorem aging_filterMap_eq_filter_map (tail : List Entry)
    (h : ∀ e ∈ tail, 0 ≤ e.2.2) :
    tail.filterMap (fun e => if 0 < e.2.2 then some (e.1, e.2.1, e.2.2 - 1) else none)
      = (tail.filter (fun e => decide (e.2.2 ≠ 0))).map (fun e => (e.1, e.2.1, e.2.2 - 1)) := by
  induction tail with
  | nil => rfl
  | cons e tl ih =>
    have he : 0 ≤ e.2.2 := h e (List.mem_cons_self e tl)
    have htl : ∀ x ∈ tl, 0 ≤ x.2.2 := fun x hx => h x (List.mem_cons_of_mem e hx)
    by_cases hpos : 0 < e.2.2
    · have : e.2.2 ≠ 0 := by omega
      simp [List.filterMap_cons, List.filter_cons, hpos, this, ih htl]
    · have : e.2.2 = 0 := by omega
      simp [List.filterMap_cons, List.filter_cons, hpos, this, ih htl]

/-- C10: a partial fill (top size strictly greater than incoming size)
returns the opposite book with the old top's size reduced and its age
unchanged, followed by the old tail with every entry's age decremented and
the entries whose age was 0 dropped — the same aging a fresh insertion
applies.  The nonnegative-age hypothesis reflects the book invariant
(`add_book` never produces a negative age). -/
theorem c10_partial_fill_ages_tail (order p : ℚ) (size s a : ℤ)
    (tail : List Entry) (op : ℚ → ℚ → Bool) (notional : ℚ)
    (hop : op order p = true) (hsz : size < s) (hages : ∀ e ∈ tail, 0 ≤ e.2.2) :
    clear_order order size ((p, s, a) :: tail) op notional
      = .ok (some (notional + (size : ℚ) * p,
          (p, s - size, a) ::
            (tail.filter (fun e => decide (e.2.2 ≠ 0))).map
              (fun e => (e.1, e.2.1, e.2.2 - 1)))) := by
  have hpos : 0 < s - size := by omega
  have hmin : min size s = size := min_eq_left (le_of_lt hsz)
  simp [clear_order, hop, hpos, hmin, add_book, aging_filterMap_eq_filter_map tail hages]

/-- C10 witness: an incoming buy at 9 of size 2 partially fills the ask top
`(8, 5, 4)`; the tail entry of age 0 is evicted and the age-5 entry is
decremented, while the shrunken top keeps age 4. -/
theorem c10_witness :
    clear_order 9 2 [((8 : ℚ), 5, 4), (7, 3, 0), (6, 2, 5)] operator_ge 0
      = .ok (some (16, [((8 : ℚ), 3, 4), (6, 2, 4)])) := by
  have h := c10_partial_fill_ages_tail 9 8 2 5 4 [((7 : ℚ), 3, 0), (6, 2, 5)]
    operator_ge 0 (by norm_num [operator_ge]) (by norm_num) (by decide)
  norm_num [List.filter, List.map] at h
  exact h

/-- Python's floor-style remainder lands in `[0, b)` for a positive divisor. -/
theorem pymod_nonneg_lt (a b : ℚ) (hb : 0 < b) : 0 ≤ pymod a b ∧ pymod a b < b := by
  have hbne : b ≠ 0 := ne_of_gt hb
  have hfr : pymod a b = b * Int.fract (a / b) := by
    rw [pymod, Int.fract]
    field_simp
  constructor
  · rw [hfr]
    exact mul_nonneg (le_of_lt hb) (Int.fract_nonneg _)
  · rw [hfr]
    calc b * Int.fract (a / b) < b * 1 :=
          (mul_lt_mul_left hb).mpr (Int.fract_lt_one _)
    _ = b := mul_one b

/-- One emitted step of the reflected walk is bounded. -/
theorem bwalk_step_bounds (lo rng acc : ℚ) (hr : 0 < rng) :
    lo ≤ |pymod acc (rng * 2) - rng| + lo ∧ |pymod acc (rng * 2) - rng| + lo ≤ lo + rng := by
  obtain ⟨h0, h1⟩ := pymod_nonneg_lt acc (rng * 2) (by linarith)
  have habs : |pymod acc (rng * 2) - rng| ≤ rng := by
    rw [abs_le]
    constructor <;> linarith
  constructor
  · have := abs_nonneg (pymod acc (rng * 2) - rng)
    linarith
  · linarith

/-- Values of the walk loop stay in `[lo, lo + rng]`, for any accumulator. -/
theorem bwalk_go_mem_bounds (lo rng : ℚ) (hr : 0 < rng) (acc : ℚ) (draws : List ℚ)
    (v : ℚ) (hv : v ∈ bwalk_go lo rng acc draws) : lo ≤ v ∧ v ≤ lo + rng := by
  induction draws generalizing acc with
  | nil => simp [bwalk_go] at hv
  | cons d ds ih =>
    simp only [bwalk_go, List.mem_cons] at hv
    rcases hv with hv | hv
    · subst hv
      exact bwalk_step_bounds lo rng (acc + d) hr
    · exact ih (acc + d) hv

/-- C7: for every parameterisation with `min < max` and every sequence of
injected perturbations, every value emitted by `bwalk` lies in
`[min, max]`. -/
theorem c7_bwalk_bounded (min max std : ℚ) (hlt : min < max) (draws : List ℚ)
    (v : ℚ) (hv : v ∈ bwalk min max std draws) : min ≤ v ∧ v ≤ max := by
  have h := bwalk_go_mem_bounds min (max - min) (by linarith) max draws v hv
  exact ⟨h.1, by linarith [h.2]⟩

/-- C7 witness: the walk with bounds `[0, 10]` and one injected draw `3`
emits the value 3, which lies within the bounds. -/
theorem c7_witness :
    (0 : ℚ) < 10 ∧ (3 : ℚ) ∈ bwalk 0 10 1 [3] ∧ ((0 : ℚ) ≤ 3 ∧ (3 : ℚ) ≤ 10) := by
  have hmem : (3 : ℚ) ∈ bwalk 0 10 1 [3] := by
    norm_num [bwalk, bwalk_go, pymod]
  exact ⟨by norm_num, hmem, c7_bwalk_bounded 0 10 1 (by norm_num) [3] 3 hmem⟩

/-- C3 (amended): with real-time pacing enabled, every snapshot a pull of
the current-book generator returns has timestamp STRICTLY GREATER than
`sim_start + (now - rt_start)` at the `datetime.now()` sample used for its
check (the sample at index `k1 - 1`): already-caught-up snapshots are
drained and skipped, and only a snapshot still ahead of wall-clock time is
handed to the caller. -/
theorem c3_returned_snapshot_exceeds_pacing_target (sim_start rt_start : ℚ)
    (nows : ℕ → ℚ) (snaps : List Snapshot) (k : ℕ) (s : Snapshot)
    (rest : List Snapshot) (k1 : ℕ)
    (h : next_current_book sim_start rt_start nows snaps k = .ok (s, rest, k1)) :
    sim_start + (nows (k1 - 1) - rt_start) < s.1 := by
  induction snaps generalizing k with
  | nil => simp [next_current_book] at h
  | cons a tl ih =>
    rw [next_current_book] at h
    simp only [REALTIME, if_true] at h
    by_cases hc : sim_start + (nows k - rt_start) < a.1
    · rw [if_pos hc] at h
      simp only [Except.ok.injEq, Prod.mk.injEq] at h
      obtain ⟨hs, -, hk⟩ := h
      subst hs
      rw [← hk]
      simpa using hc
    · rw [if_neg hc] at h
      exact ih (k + 1) h

/-- C3 counterexample: with `sim_start = rt_start = 0` and a wall-clock
sample of 1, the pull returns the snapshot with timestamp 5, which violates
the claimed bound `t ≤ sim_start + (now - rt_start) = 1`. -/
theorem c3_counterexample :
    next_current_book 0 0 (fun _ => 1) [(((5 : ℚ)), none, none)] 0
        = .ok (((5 : ℚ), none, none), [], 1) ∧
      ¬((5 : ℚ) ≤ 0 + (1 - 0)) := by
  constructor
  · norm_num [next_current_book, REALTIME]
  · norm_num

/-- C3 witness: the amended bound holds at the concrete pull of
`c3_counterexample`: the returned timestamp 5 strictly exceeds the pacing
target 1. -/
theorem c3_witness :
    next_current_book 0 0 (fun _ => 1) [(((5 : ℚ)), none, none)] 0
        = .ok (((5 : ℚ), none, none), [], 1) ∧
      (0 : ℚ) + ((1 : ℚ) - 0) < 5 := by
  have h : next_current_book 0 0 (fun _ => (1 : ℚ)) [(((5 : ℚ)), none, none)] 0
      = .ok (((5 : ℚ), none, none), [], 1) := by
    norm_num [next_current_book, REALTIME]
  exact ⟨h, c3_returned_snapshot_exceeds_pacing_target 0 0 (fun _ => 1) _ 0 _ _ 1 h⟩

/-- C9 (amended): the i-th emitted order is a function of the i-th market
tick AND the i-th injected random draws: its limit price is
`round(price + spread/d + (spread/OVERLAP) * z, 2)` — a normal draw centered
at `price + spread/d` with standard deviation `spread/OVERLAP`, not the
deterministic `round(price + spread/d, 2)` — with `d = 2` for sell and
`d = -2` for buy, and its size is the floor of `|100 * z'|` (the absolute
value of a Normal(0, 100) draw, as the claim states). -/
theorem c9_order_price_and_size_formula :
    ∀ (hist : List (ℚ × ℚ × ℚ)) (rs : List OrderRand) (i : ℕ) (t px spd : ℚ)
      (r : OrderRand), hist[i]? = some (t, px, spd) → rs[i]? = some r →
      (orders hist rs)[i]?
        = some (Event.mk t
            (if (1 : ℚ) / 2 < r.u_stock then "ABC" else "DEF")
            (if (1 : ℚ) / 2 < r.u_side then Side.sell else Side.buy)
            (round2 (px + spd / (if (1 : ℚ) / 2 < r.u_side then (2 : ℚ) else -2)
              + spd / OVERLAP * r.z_price))
            ⌊|(100 : ℚ) * r.z_size|⌋) := by
  intro hist
  induction hist with
  | nil => intro rs i t px spd r h1 h2; simp at h1
  | cons hd tl ih =>
    intro rs i t px spd r h1 h2
    cases rs with
    | nil => simp at h2
    | cons r0 rs1 =>
      cases i with
      | zero =>
        simp only [List.getElem?_cons_zero, Option.some.injEq] at h1 h2
        subst h1
        subst h2
        by_cases hs : (2 : ℚ)⁻¹ < r0.u_side <;> simp [orders, hs]
      | succ n =>
        simp only [List.getElem?_cons_succ] at h1 h2
        simpa [orders] using ih rs1 n t px spd r h1 h2

/-- C9 counterexample: for the tick `(0, 100, 4)` with a sell side and a
standardized price draw of 1, the emitted limit price is 103, not the
claim's deterministic `round(price + spread/2, 2) = 102`. -/
theorem c9_counterexample :
    orders [((0 : ℚ), 100, 4)] [⟨1, 1, 1, 0⟩]
        = [⟨0, "ABC", .sell, 103, 0⟩] ∧
      (103 : ℚ) ≠ round2 (100 + 4 / 2) := by
  constructor
  · norm_num [orders, round2, OVERLAP]
  · norm_num [round2]

/-- C9 witness: the amended formula evaluated at the concrete tick
`(0, 100, 4)` and draws `(1, 1, 1, 0)`. -/
theorem c9_witness :
    ([((0 : ℚ), 100, 4)][0]? = some ((0 : ℚ), 100, 4)) ∧
      ([(⟨1, 1, 1, 0⟩ : OrderRand)][0]? = some (⟨1, 1, 1, 0⟩ : OrderRand)) ∧
      (orders [((0 : ℚ), 100, 4)] [(⟨1, 1, 1, 0⟩ : OrderRand)])[0]?
        = some (Event.mk 0
            (if (1 : ℚ) / 2 < (1 : ℚ) then "ABC" else "DEF")
            (if (1 : ℚ) / 2 < (1 : ℚ) then Side.sell else Side.buy)
            (round2 (100 + 4 / (if (1 : ℚ) / 2 < (1 : ℚ) then (2 : ℚ) else -2)
              + 4 / OVERLAP * 1))
            ⌊|(100 : ℚ) * 0|⌋) :=
  ⟨rfl, rfl,
    c9_order_price_and_size_formula [((0 : ℚ), 100, 4)] [⟨1, 1, 1, 0⟩] 0 0 100 4
      ⟨1, 1, 1, 0⟩ rfl rfl⟩

/-- A pull of the paced generator only ever returns a snapshot of the
underlying stream. -/
theorem next_current_book_mem (sim_start rt_start : ℚ) (nows : ℕ → ℚ)
    (snaps : List Snapshot) (k : ℕ) (s : Snapshot) (rest : List Snapshot) (k1 : ℕ)
    (h : next_current_book sim_start rt_start nows snaps k = .ok (s, rest, k1)) :
    s ∈ snaps := by
  induction snaps generalizing k with
  | nil => simp [next_current_book] at h
  | cons a tl ih =>
    rw [next_current_book] at h
    simp only [REALTIME, if_true] at h
    by_cases hc : sim_start + (nows k - rt_start) < a.1
    · rw [if_pos hc] at h
      simp only [Except.ok.injEq, Prod.mk.injEq] at h
      exact h.1 ▸ List.mem_cons_self a tl
    · rw [if_neg hc] at h
      exact List.mem_cons_of_mem a (ih (k + 1) h)

/-- C6 (amended): when a query pull finds feed 1 exhausted, the orchestrator
rebuilds both symbols' pipelines from the same recorded source and retries
exactly once; the rebuilt replay does re-read the rows from the start, but
initialization itself consumes the first snapshot (to capture `sim_start`)
plus ten warm-up snapshots from each feed, so any snapshot a caller can
observe after the rebuild lies beyond the first 11 recorded rows for ABC
(beyond the first 10 for DEF) — never the 1st recorded row. -/
theorem c6_rebuild_observable_beyond_warmup (rows : List Event) (nows : ℕ → ℚ)
    (st : AppState) (k : ℕ) (s1 s2 : Snapshot) (st1 : AppState) (k1 : ℕ)
    (hempty : st.data_1 = [])
    (h : handle_query rows nows st k = .ok (s1, s2, st1, k1)) :
    s1 ∈ (order_book rows st.book_1 "ABC").drop 11 ∧
      s2 ∈ (order_book rows st.book_2 "DEF").drop 10 := by
  have hp : pull_both nows st k = .error () := by
    simp [pull_both, hempty, next_current_book]
  rw [handle_query, hp] at h
  cases hinit : initialize_data_feeds rows st with
  | error e => rw [hinit] at h; simp at h
  | ok st2 =>
    rw [hinit] at h
    simp only at h
    cases hd1 : order_book rows st.book_1 "ABC" with
    | nil => rw [initialize_data_feeds, hd1] at hinit; simp at hinit
    | cons s0 d1rest =>
      rw [initialize_data_feeds, hd1] at hinit
      simp only [read_10_first_lines] at hinit
      split at hinit
      case isFalse => simp at hinit
      case isTrue hlen =>
        simp only [Except.ok.injEq] at hinit
        subst hinit
        cases hn1 : next_current_book s0.1 st.rt_start nows (d1rest.drop 10) k with
        | error e =>
          rw [pull_both] at h
          simp only at h
          rw [hn1] at h
          simp at h
        | ok tr1 =>
          obtain ⟨s1x, rest1, k1x⟩ := tr1
          rw [pull_both] at h
          simp only at h
          rw [hn1] at h
          simp only at h
          cases hn2 : next_current_book s0.1 st.rt_start nows
              ((order_book rows st.book_2 "DEF").drop 10) k1x with
          | error e => rw [hn2] at h; simp at h
          | ok tr2 =>
            obtain ⟨s2x, rest2, k2x⟩ := tr2
            rw [hn2] at h
            simp only [Except.ok.injEq, Prod.mk.injEq] at h
            obtain ⟨hs1, hs2, -, -⟩ := h
            subst hs1
            subst hs2
            constructor
            · rw [List.drop_succ_cons]
              exact next_current_book_mem _ _ _ _ _ _ _ _ hn1
            · exact next_current_book_mem _ _ _ _ _ _ _ _ hn2

/-- C6 counterexample: over the concrete 12-row source `rows12` (timestamps
1..12), a query against exhausted feeds rebuilds and retries — but the first
snapshot the caller observes after the rebuild has timestamp 12 (for ABC;
11 for DEF), not the timestamp 1 of the 1st recorded row. -/
theorem c6_counterexample :
    handle_query rows12 (fun _ => 0) st0 0
        = .ok (((12 : ℚ), none, none), ((11 : ℚ), none, none), st12, 2) ∧
      (12 : ℚ) ≠ 1 := by
  constructor
  · norm_num [handle_query, pull_both, initialize_data_feeds, read_10_first_lines,
      next_current_book, REALTIME, rows12, st0, st12, order_book, insert_step,
      clear_book, BookDict.empty, Snapshot, show "XYZ" ≠ "ABC" from by decide,
      show "XYZ" ≠ "DEF" from by decide]
  · norm_num

/-- C6 witness: the amended bound at the concrete rebuild of
`c6_counterexample`: both observed snapshots lie beyond the warm-up prefix
of the rebuilt feeds. -/
theorem c6_witness :
    ((12 : ℚ), (none : Option (List Entry)), (none : Option (List Entry)))
        ∈ (order_book rows12 st0.book_1 "ABC").drop 11 ∧
      ((11 : ℚ), (none : Option (List Entry)), (none : Option (List Entry)))
        ∈ (order_book rows12 st0.book_2 "DEF").drop 10 := by
  have h : handle_query rows12 (fun _ => 0) st0 0
      = .ok (((12 : ℚ), none, none), ((11 : ℚ), none, none), st12, 2) := by
    norm_num [handle_query, pull_both, initialize_data_feeds, read_10_first_lines,
      next_current_book, REALTIME, rows12, st0, st12, order_book, insert_step,
      clear_book, BookDict.empty, Snapshot, show "XYZ" ≠ "ABC" from by decide,
      show "XYZ" ≠ "DEF" from by decide]
  exact c6_rebuild_observable_beyond_warmup rows12 (fun _ => 0) st0 0
    ((12 : ℚ), none, none) ((11 : ℚ), none, none) st12 2 rfl h
